import Mathlib

/-!
Verification development for the videold backend (Express + yt-dlp service).

The definitions below are shallow embeddings of the JavaScript helpers and
handlers of `src/backend/index.js` (second revision in the file, the one the
claims cite) and of the variants in `src/unnamed/part_000` / `src/unnamed/part_002`.
JS strings are Lean `String`s, JS arrays are Lean `List`s, the filesystem and
the external `yt-dlp` process are explicit parameters (an existence predicate,
a list of process events), and JS truthiness on optional strings is made
explicit via `truthy`.
-/

/-- JS `hay.includes(needle)`: substring containment. -/
def jsIncludes (hay needle : String) : Bool :=
  decide (needle.data <:+: hay.data)

/-- Lower-casing of a string, character by character (models JS `toLowerCase`
on the ASCII data we deal with). -/
def toLowerStr (s : String) : String :=
  ⟨s.data.map Char.toLower⟩

/-- JS truthiness of an optional string: `undefined`/`null` and `""` are falsy,
every other string (including `"none"`) is truthy. -/
def truthy : Option String → Bool
  | none => false
  | some s => !s.isEmpty

/-- JS `a || b` on a possibly-absent string `a` with string default `b`. -/
def jsOr (a : Option String) (b : String) : String :=
  match a with
  | some s => if s.isEmpty then b else s
  | none => b

/-- JS `a || b` on two strings (empty string is falsy). -/
def strOr (a b : String) : String :=
  if a.isEmpty then b else a

/-! ## Filename sanitizer (`sanitizeFilename`, src/backend/index.js lines 123-130)

```js
return name
  .replace(/[^a-zA-Z0-9-_\.]/g, "_")
  .replace(/_+/g, "_")
  .replace(/^_+|_+$/g, "")
  .substring(0, 80);
```
-/

/-- The character class `[a-zA-Z0-9-_.]` kept by the first `replace`. -/
def jsAllowedChar (c : Char) : Bool :=
  ('a' ≤ c && c ≤ 'z') || ('A' ≤ c && c ≤ 'Z') || ('0' ≤ c && c ≤ '9') ||
    c = '-' || c = '_' || c = '.'

/-- `replace(/[^a-zA-Z0-9-_\.]/g, "_")`: every character outside the class
becomes an underscore. -/
def underscoreDisallowed (l : List Char) : List Char :=
  l.map (fun c => if jsAllowedChar c then c else '_')

/-- `replace(/_+/g, "_")`: each maximal run of underscores collapses to one. -/
def collapseUnderscores : List Char → List Char
  | [] => []
  | [c] => [c]
  | a :: b :: rest =>
    if a = '_' ∧ b = '_' then collapseUnderscores (b :: rest)
    else a :: collapseUnderscores (b :: rest)

/-- `replace(/^_+|_+$/g, "")`: drop the leading run and the trailing run of
underscores. -/
def stripUnderscores (l : List Char) : List Char :=
  ((l.dropWhile (fun c => c = '_')).reverse.dropWhile (fun c => c = '_')).reverse

/-- `sanitizeFilename` from src/backend/index.js lines 123-130 (identical in
src/unnamed/part_000 and part_002). `substring(0, 80)` is `take 80`. -/
def sanitizeFilename (s : String) : String :=
  ⟨(stripUnderscores (collapseUnderscores (underscoreDisallowed s.data))).take 80⟩

/-! ## URL validator (`isValidVideoUrl`, src/backend/index.js lines 133-142)

```js
/^(https?:)?\/\/([a-zA-Z0-9-]+\.)?(youtube\.com|youtu\.be|m\.youtube\.com|
music\.youtube\.com|facebook\.com|fb\.watch|instagram\.com|tiktok\.com|
vt\.tiktok\.com|twitter\.com|x\.com)\//.test(url)
```
-/

/-- The character class `[a-zA-Z0-9-]` of the optional subdomain label. -/
def isLabelChar (c : Char) : Bool :=
  ('a' ≤ c && c ≤ 'z') || ('A' ≤ c && c ≤ 'Z') || ('0' ≤ c && c ≤ '9') || c = '-'

/-- The whitelisted platform hostnames of the validator regex, in source order. -/
def supportedDomains : List String :=
  ["youtube.com", "youtu.be", "m.youtube.com", "music.youtube.com",
   "facebook.com", "fb.watch", "instagram.com", "tiktok.com", "vt.tiktok.com",
   "twitter.com", "x.com"]

/-- The tail of the regex after the optional subdomain: one whitelisted domain
followed by a literal `/`. -/
def domainSlashAt (l : List Char) : Bool :=
  supportedDomains.any (fun d => (d.data ++ ['/']).isPrefixOf l)

/-- `isValidVideoUrl` from src/backend/index.js lines 133-142: anchored regex
test with optional scheme `(https?:)?`, mandatory `//`, optional single
subdomain label `([a-zA-Z0-9-]+\.)?` and a whitelisted domain followed by `/`.
The optional label, being a maximal run of label characters followed by a dot,
has exactly one candidate match, so regex backtracking is the disjunction
below. -/
def isValidVideoUrl (url : String) : Bool :=
  let l := url.data
  let afterScheme :=
    if ("https:".data).isPrefixOf l then l.drop 6
    else if ("http:".data).isPrefixOf l then l.drop 5
    else l
  if ("//".data).isPrefixOf afterScheme then
    let s := afterScheme.drop 2
    let label := s.takeWhile isLabelChar
    let rest := s.dropWhile isLabelChar
    domainSlashAt s ||
      (!label.isEmpty &&
        (match rest with
         | '.' :: r => domainSlashAt r
         | _ => false))
  else false

/-! ## Format descriptors and the argument list of `downloadWithProgress`
(src/backend/index.js lines 656-786, second revision) -/

/-- One entry of `info.formats` as used by the code: the format id compared
with `===`, and the codec fields tested both for JS truthiness and for the
absent-marker string `"none"`. An absent field is `none`. -/
structure FormatDescriptor where
  format_id : String
  vcodec : Option String := none
  acodec : Option String := none
deriving DecidableEq, Repr

/-- `(info.formats || []).find((f) => f.format_id === quality)`. -/
def findFormat (formats : List FormatDescriptor) (q : String) : Option FormatDescriptor :=
  formats.find? (fun f => f.format_id = q)

/-- `selectedFormat.vcodec === "none" && selectedFormat.acodec && selectedFormat.acodec !== "none"`. -/
def audioOnlyFmt (f : FormatDescriptor) : Bool :=
  f.vcodec = some "none" && truthy f.acodec && !(f.acodec = some "none")

/-- `selectedFormat.vcodec && selectedFormat.acodec === "none"` (note that the
string `"none"` is itself truthy in JS, so this test only requires a truthy
video codec). -/
def videoOnlyFmt (f : FormatDescriptor) : Bool :=
  truthy f.vcodec && f.acodec = some "none"

/-- One element of the `args` array handed to `yt-dlp`. The branch
`else { args.push("-f", quality); ... }` of the YouTube case pushes the JS
value `undefined` when no quality was requested, so elements are either
strings or `undefined`. -/
inductive Arg where
  | s (v : String)
  | undef
deriving DecidableEq, Repr

/-- The fixed best-compatible expression used for Facebook, for the no-quality
default and for the fallback retry. -/
def fixedBest : String := "bestvideo[vcodec^=avc1]+bestaudio[acodec^=mp4a]/best"

/-- Chrome user-agent string pushed for Instagram and YouTube. -/
def chromeUA : String :=
  "Mozilla/5.0 (Windows NT 10.0; Win64; x64) AppleWebKit/537.36 (KHTML, like Gecko) Chrome/124.0.0.0 Safari/537.36"

/-- `args.push("--merge-output-format", "mp4")`. -/
def mergeArgs : List Arg := [Arg.s "--merge-output-format", Arg.s "mp4"]

/-- `args.push("--recode-video", "mp4")`. -/
def recodeArgs : List Arg := [Arg.s "--recode-video", Arg.s "mp4"]

/-- The per-platform `if/else` chain of `downloadWithProgress`
(src/backend/index.js lines 680-757): everything pushed between the cookie
handling and the blanket merge block. -/
def platformArgs (url : String) (quality : Option String)
    (formats : List FormatDescriptor) : List Arg :=
  if jsIncludes url "facebook.com" then
    [Arg.s "-f", Arg.s fixedBest] ++ mergeArgs ++ recodeArgs
  else if jsIncludes url "x.com" || jsIncludes url "twitter.com" then
    [Arg.s "-f", Arg.s "bestvideo*+bestaudio/best"] ++ mergeArgs
  else if jsIncludes url "instagram.com" then
    (if truthy quality then [Arg.s "-f", Arg.s (quality.getD "")]
     else [Arg.s "-f", Arg.s "bestvideo[ext=mp4]+bestaudio[ext=m4a]/best"]) ++
      mergeArgs ++ recodeArgs ++
      [Arg.s "--user-agent", Arg.s chromeUA,
       Arg.s "--add-header", Arg.s "Accept-Language: en-US,en;q=0.9"]
  else if jsIncludes url "youtube.com" || jsIncludes url "youtu.be" then
    (if truthy quality then
      let q := quality.getD ""
      match findFormat formats q with
      | some sf =>
        if audioOnlyFmt sf then [Arg.s "-f", Arg.s q]
        else if videoOnlyFmt sf then
          [Arg.s "-f", Arg.s (q ++ "+bestaudio[acodec^=mp4a]/best")] ++ mergeArgs ++ recodeArgs
        else [Arg.s "-f", Arg.s q] ++ mergeArgs ++ recodeArgs
      | none => [Arg.s "-f", Arg.s q] ++ mergeArgs ++ recodeArgs
     else [Arg.s "-f", Arg.undef] ++ mergeArgs ++ recodeArgs) ++
      [Arg.s "--user-agent", Arg.s chromeUA]
  else
    [Arg.s "-f", Arg.s fixedBest] ++ mergeArgs ++ recodeArgs

/-- The `isAudioOnly` immediately-invoked expression of src/backend/index.js
lines 761-774: only a YouTube URL with a requested quality whose looked-up
format is audio-only counts. -/
def audioOnlySelected (url : String) (quality : Option String)
    (formats : List FormatDescriptor) : Bool :=
  (jsIncludes url "youtube.com" || jsIncludes url "youtu.be") &&
    (truthy quality &&
      (match findFormat formats (quality.getD "") with
       | some sf => audioOnlyFmt sf
       | none => false))

/-- The complete `args` array built by `downloadWithProgress`
(src/backend/index.js lines 673-786): base flags, optional cookies, platform
chain, blanket merge/recode unless audio-only, output pattern, then the URL. -/
def buildArgs (url : String) (quality : Option String)
    (formats : List FormatDescriptor) (cookiesFile : Option String)
    (safeFilename : String) : List Arg :=
  ([Arg.s "--no-playlist", Arg.s "--newline"] ++
    (match cookiesFile with
     | some c => [Arg.s "--cookies", Arg.s c]
     | none => [])) ++
  platformArgs url quality formats ++
  (if audioOnlySelected url quality formats then [] else mergeArgs ++ recodeArgs) ++
  [Arg.s "-o", Arg.s (safeFilename ++ ".%(ext)s"), Arg.s url]

/-- The `formatArg` selection of the `/api/multi-downloads` handler
(src/backend/index.js lines 1210-1235): Facebook and Instagram get fixed
expressions, a YouTube video-only quality is replaced by the fixed
best-compatible expression, any other quality passes through, and no quality
gives the fixed expression. -/
def multiFormatArg (url : String) (quality : Option String)
    (formats : List FormatDescriptor) : String :=
  if jsIncludes url "facebook.com" then fixedBest
  else if jsIncludes url "instagram.com" then
    "bestvideo[ext=mp4]+bestaudio[ext=m4a]/best"
  else if truthy quality then
    let q := quality.getD ""
    if jsIncludes url "youtube.com" || jsIncludes url "youtu.be" then
      match findFormat formats q with
      | some sf => if truthy sf.vcodec && sf.acodec = some "none" then fixedBest else q
      | none => q
    else q
  else fixedBest

/-! ## The `runYtDlp` retry loop (src/backend/index.js lines 788-879) -/

/-- The diagnostic text that triggers the one-shot fallback. -/
def formatErrMsg : String := "Requested format is not available"

/-- `o?.includes(needle)` on an optional string: `undefined` is falsy. -/
def optIncludes (o : Option String) (needle : String) : Bool :=
  match o with
  | none => false
  | some s => jsIncludes s needle

/-- The decisive signal one `yt-dlp` invocation eventually produces: an
`error` event carrying optional `message` / `stderr` texts, or a `close`
event after which the scratch directory holds the listed files
(name and content). -/
inductive ProcEvent where
  | err (message : Option String) (stderr : Option String)
  | close (files : List (String × String))
deriving DecidableEq, Repr

/-- How one call of `downloadWithProgress` ends: the promise resolves with a
file name, or rejects (subprocess error, platform `.txt` error file, or no
merged output), or is still pending because the event trace ran out. -/
inductive DlResult where
  | resolved (filename : String)
  | rejectedErr
  | rejectedTxt (excerpt : String)
  | rejectedNoFile
  | pending
deriving DecidableEq, Repr

/-- Observable outcome of the `runYtDlp` recursion: how many times the
external tool was spawned, the argument list of each spawn in order, whether
`tmpDir.removeCallback()` ran inside the loop, and the promise's fate. -/
structure RunOut where
  invocations : Nat
  argsUsed : List (List Arg)
  cleaned : Bool
  result : DlResult
deriving DecidableEq, Repr

/-- The guard of the fallback branch in the `error` handler
(src/backend/index.js lines 812-819):
`!triedFallback && !url.includes("facebook.com") && quality &&
(err.message?.includes(...) || err.stderr?.includes(...))`. -/
def errEligible (url : String) (quality : Option String) (tried : Bool)
    (message stderr : Option String) : Bool :=
  !tried && !(jsIncludes url "facebook.com") && truthy quality &&
    (optIncludes message formatErrMsg || optIncludes stderr formatErrMsg)

/-- The fallback substitution (src/backend/index.js lines 821-829): copy the
original `args`, find the first index whose element is `"-f"` and whose next
element equals the requested quality, and overwrite that next element with
`fixedBest`; if no such index exists the copy is unchanged. -/
def applyFallback : List Arg → String → List Arg
  | [], _ => []
  | [a], _ => [a]
  | a :: b :: rest, q =>
    if a = Arg.s "-f" ∧ b = Arg.s q then a :: Arg.s fixedBest :: rest
    else a :: applyFallback (b :: rest) q

/-- The `close` handler (src/backend/index.js lines 835-878): look for a
merged `.mp4` that is not a fragment/temp/partial file; failing that, reject
with a platform `.txt` error file's content (truncated to 500 characters) or
with the generic no-file error. -/
def closeOutcome (files : List (String × String)) : Bool × DlResult :=
  match files.find? (fun f =>
      f.1.endsWith ".mp4" && !jsIncludes f.1 ".f" && !jsIncludes f.1 ".temp" &&
        !f.1.endsWith ".part.mp4") with
  | some f => (false, DlResult.resolved f.1)
  | none =>
    match files.find? (fun f => f.1.endsWith ".txt") with
    | some t => (true, DlResult.rejectedTxt ⟨t.2.data.take 500⟩)
    | none => (true, DlResult.rejectedNoFile)

/-- The `runYtDlp` recursion itself: each call spawns the tool once and
consumes the next decisive event. On an eligible error it re-runs with the
fallback substitution applied to the ORIGINAL argument list (the closure
variable `args`), having set `triedFallback`; on any other error it removes
the scratch directory and rejects. -/
def runLoop (url : String) (quality : Option String) (origArgs : List Arg)
    (currentArgs : List Arg) (tried : Bool) : List ProcEvent → RunOut
  | [] => { invocations := 1, argsUsed := [currentArgs], cleaned := false,
            result := DlResult.pending }
  | ProcEvent.err m st :: rest =>
    if errEligible url quality tried m st then
      let r := runLoop url quality origArgs
        (applyFallback origArgs (quality.getD "")) true rest
      { invocations := r.invocations + 1, argsUsed := currentArgs :: r.argsUsed,
        cleaned := r.cleaned, result := r.result }
    else
      { invocations := 1, argsUsed := [currentArgs], cleaned := true,
        result := DlResult.rejectedErr }
  | ProcEvent.close files :: _ =>
    let o := closeOutcome files
    { invocations := 1, argsUsed := [currentArgs], cleaned := o.1, result := o.2 }

/-- `runYtDlp(args)` as called at the bottom of `downloadWithProgress`
(src/backend/index.js line 880): first invocation with the built argument
list and `triedFallback = false`. -/
def downloadRun (url : String) (quality : Option String) (args : List Arg)
    (events : List ProcEvent) : RunOut :=
  runLoop url quality args args false events

/-! ## The `/api/downloads` handler (src/backend/index.js lines 937-1161) -/

/-- The request body fields the handler reads. -/
structure DlRequest where
  url : String
  quality : Option String
  downloadId : Option String
deriving Repr

/-- The express-validator chain of `/api/downloads`: `url` must pass
`isValidVideoUrl`, `quality` (if present) is a string of length at most 50,
`downloadId` (if present) of length at most 64. Returns `true` when
`validationResult(req)` is non-empty. -/
def hasValidationError (r : DlRequest) : Bool :=
  !(isValidVideoUrl r.url) ||
    (match r.quality with
     | some q => decide (q.length > 50)
     | none => false) ||
    (match r.downloadId with
     | some d => decide (d.length > 64)
     | none => false)

/-- Result of the metadata probe `ytDlpWrap.getVideoInfo(...)`: the title and
the available formats (absent on rejection). -/
structure InfoData where
  title : Option String
  formats : List FormatDescriptor
deriving Repr

/-- One external-tool invocation observable at the process boundary. -/
inductive Effect where
  | execDumpJson
  | probeInfo
  | ytExec (args : List Arg)
deriving DecidableEq, Repr

/-- The handler's response, coarsened to its branch: 400 validation reject,
metadata JSON, a streamed file, or an error response (the 403/429/500 family
of the catch block). -/
inductive DlResponse where
  | badRequest
  | metadata
  | fileStream (filename : String)
  | errorResponse
deriving DecidableEq, Repr

/-- Environment of one `/api/downloads` call: cookie file resolved for the
URL, the probe result (`none` = `getVideoInfo` throws), the number of extra
per-entry probes a playlist metadata request performs, a fresh uuid, and the
subprocess event trace. -/
structure HandlerEnv where
  cookies : Option String
  probe : Option InfoData
  playlistExtra : Nat
  uuid : String
  events : List ProcEvent

/-- The `/api/downloads` handler (src/backend/index.js lines 946-1161):
validation errors answer 400 before anything runs; a falsy `quality` answers
metadata via `--dump-single-json` invocations; otherwise
`downloadWithProgress` probes the video info, builds the argument list and
runs the `runYtDlp` loop. The second component lists every external-tool
invocation in order. -/
def handleDownloads (r : DlRequest) (env : HandlerEnv) : DlResponse × List Effect :=
  if hasValidationError r then (DlResponse.badRequest, [])
  else if !truthy r.quality then
    (DlResponse.metadata,
      Effect.execDumpJson :: List.replicate env.playlistExtra Effect.execDumpJson)
  else
    match env.probe with
    | none => (DlResponse.errorResponse, [Effect.probeInfo])
    | some info =>
      let safe := sanitizeFilename (jsOr info.title env.uuid)
      let args := buildArgs r.url r.quality info.formats env.cookies safe
      let run := downloadRun r.url r.quality args env.events
      ((match run.result with
        | DlResult.resolved f => DlResponse.fileStream f
        | _ => DlResponse.errorResponse),
        Effect.probeInfo :: run.argsUsed.map Effect.ytExec)

/-! ## The two `/api/multi-downloads` batch orchestrators -/

/-- One element of the `videos` array of a batch request. -/
structure BatchVideo where
  url : String
  quality : Option String
  title : Option String
deriving DecidableEq, Repr

/-- One entry of the produced ZIP archive: a media file under a sanitized
name, or a textual placeholder record. -/
inductive ZipEntry where
  | media (name : String)
  | placeholder (name : String) (content : String)
deriving DecidableEq, Repr

/-- Outcome of a whole batch call: the archive's entries streamed with an HTTP
success, or an aborted request answered with an HTTP 500 carrying the given
body. -/
inductive MultiResult where
  | completed (entries : List ZipEntry)
  | aborted (message : String)
deriving DecidableEq, Repr

/-- Whether the batch call succeeded as a whole. -/
def MultiResult.isCompleted : MultiResult → Bool
  | MultiResult.completed _ => true
  | MultiResult.aborted _ => false

/-- External outcomes for one item of the src/backend/index.js batch loop:
the metadata probe result (`none` = `getVideoInfo` throws), whether
`execPromise` resolves, whether the expected output file exists afterwards,
and a fresh uuid for the no-title fallback. -/
structure MultiItemEnv where
  info : Option InfoData
  execOk : Bool
  filePresent : Bool
  uuid : String

/-- `title ? sanitizeFilename(title) : info.title ? sanitizeFilename(info.title) : uuidv4()`
(src/backend/index.js lines 1238-1242). -/
def multiSafeTitle (v : BatchVideo) (info : InfoData) (uuid : String) : String :=
  match v.title with
  | some t => if t.isEmpty then fallbackTitle else sanitizeFilename t
  | none => fallbackTitle
where fallbackTitle :=
  match info.title with
  | some t => if t.isEmpty then uuid else sanitizeFilename t
  | none => uuid

/-- The `/api/multi-downloads` loop of src/backend/index.js (lines 1196-1301):
items are processed in order; a probe or subprocess error is caught by the
surrounding `try` and answers 500 (`"Multi-download error occurred"`); a
missing output file answers 500 (`"File not found for <url>"`) directly; only
if every item succeeds is the archive finalized and streamed. (Entries queued
before an abort never reach the client, because the 500 replaces the ZIP
response.) -/
def runBatchIndex : List (BatchVideo × MultiItemEnv) → MultiResult
  | [] => MultiResult.completed []
  | (v, env) :: rest =>
    match env.info with
    | none => MultiResult.aborted "Multi-download error occurred"
    | some info =>
      if !env.execOk then MultiResult.aborted "Multi-download error occurred"
      else if !env.filePresent then
        MultiResult.aborted ("File not found for " ++ v.url)
      else
        match runBatchIndex rest with
        | MultiResult.completed es =>
          MultiResult.completed
            (ZipEntry.media (multiSafeTitle v info env.uuid ++ ".mp4") :: es)
        | MultiResult.aborted m => MultiResult.aborted m

/-- Per-item promise outcome for the src/unnamed/part_000 batch loop: the
filename `downloadWithProgress` resolved with, or the error message it
rejected with. -/
abbrev Part0ItemRes := Except String String

/-- The per-item body of the src/unnamed/part_000 `/api/multi-downloads` loop
(lines 636-657): a success is archived under
`sanitizeFilename(video.title || filename || "video_<i>") + ".mp4"`; a caught
failure appends the placeholder `failed_<i>.txt` naming the source and the
error, and the loop continues. -/
def part0Entry (i : Nat) (v : BatchVideo) (r : Part0ItemRes) : ZipEntry :=
  match r with
  | Except.ok filename =>
    ZipEntry.media
      (sanitizeFilename (jsOr v.title (strOr filename ("video_" ++ toString i))) ++ ".mp4")
  | Except.error e =>
    ZipEntry.placeholder ("failed_" ++ toString i ++ ".txt")
      ("Failed to download " ++ v.url ++ "\nError: " ++ e)

/-- The `for (let i = 0; ...)` loop of src/unnamed/part_000 lines 636-657,
carrying the running index. -/
def part0Loop (i : Nat) : List (BatchVideo × Part0ItemRes) → List ZipEntry
  | [] => []
  | (v, r) :: rest => part0Entry i v r :: part0Loop (i + 1) rest

/-- The whole src/unnamed/part_000 `/api/multi-downloads` handler after
validation: every item contributes exactly one archive entry and the archive
is always finalized and streamed (HTTP success). -/
def runBatchPart0 (items : List (BatchVideo × Part0ItemRes)) : MultiResult :=
  MultiResult.completed (part0Loop 0 items)

/-! ## Cookie resolver (`getCookiesFile`, src/backend/index.js lines 88-120) -/

/-- The `domainCookiesMap` object, in property order. -/
def cookieDomainMap : List (String × String) :=
  [("facebook.com", "facebook.com_cookies.txt"),
   ("tiktok.com", "tiktok.com_cookies.txt"),
   ("vt.tiktok.com", "tiktok.com_cookies.txt"),
   ("youtube.com", "youtube.com_cookies.txt"),
   ("youtu.be", "youtube.com_cookies.txt"),
   ("twitter.com", "x.com_cookies.txt"),
   ("x.com", "x.com_cookies.txt")]

/-- `getCookiesFile` (src/backend/index.js lines 88-120). Instagram URLs are
matched case-insensitively (`/instagram\.com/i`); other platforms by the
first `url.includes(domain)` hit in property order. The result is the mapped
bundle file when `fs.existsSync` says it exists at this very call, `null`
otherwise. The filesystem is the explicit predicate `fsExists`; `path.join`
with the server directory is elided, keeping the bundle file name. -/
def getCookiesFile (url : String) (fsExists : String → Bool) : Option String :=
  if jsIncludes (toLowerStr url) "instagram.com" then
    if fsExists "instagram.com_cookies.txt" then some "instagram.com_cookies.txt"
    else none
  else
    match cookieDomainMap.find? (fun p => jsIncludes url p.1) with
    | some p => if fsExists p.2 then some p.2 else none
    | none => none

/-- The URL-to-bundle mapping alone, without the existence check: the file
`getCookiesFile` would test for. -/
def mappedCookieFile (url : String) : Option String :=
  if jsIncludes (toLowerStr url) "instagram.com" then
    some "instagram.com_cookies.txt"
  else
    (cookieDomainMap.find? (fun p => jsIncludes url p.1)).map (fun p => p.2)

/-! ## Artifact validation of src/unnamed/part_002 (`runYtDlp` close handler
lines 281-329 and the `/api/downloads` checks lines 438-465) -/

/-- An output artifact found in the scratch directory: its file name and its
content bytes (0..255). -/
structure FoundFile where
  name : String
  bytes : List Nat
deriving Repr

/-- `path.extname`: the suffix from the last dot on, `""` when the name has no
dot (sufficient for the names at hand, which always carry an extension). -/
def extnameOf (name : String) : String :=
  let cs := name.data
  let afterDot := cs.reverse.takeWhile (fun c => c ≠ '.')
  if afterDot.length < cs.length then ⟨'.' :: afterDot.reverse⟩ else ""

/-- Decode bytes as text, one character per byte (faithful for the ASCII
content these checks look at). -/
def asciiStr (bytes : List Nat) : String :=
  ⟨bytes.map Char.ofNat⟩

/-- The bytes of an ASCII string. -/
def asciiBytes (s : String) : List Nat :=
  s.data.map Char.toNat

/-- One hex digit, lower case, as `Buffer.toString("hex")` produces. -/
def hexDigit (n : Nat) : Char :=
  ("0123456789abcdef".data).getD n 'x'

/-- Two hex digits of one byte. -/
def hexByte (b : Nat) : List Char :=
  [hexDigit (b / 16 % 16), hexDigit (b % 16)]

/-- `Buffer.toString("hex")` of a byte list. -/
def hexStr (bytes : List Nat) : String :=
  ⟨(bytes.map hexByte).flatten⟩

/-- The src/unnamed/part_002 close-handler validation (lines 291-322): reject
when the extension is `.txt`/`.html` or when the first 300 characters of the
content read as text contain `<!DOCTYPE html` or `<html`. -/
def part2CloseRejects (f : FoundFile) : Bool :=
  let ext := toLowerStr (extnameOf f.name)
  let fileHeader := asciiStr (f.bytes.take 300)
  ext = ".txt" || ext = ".html" ||
    jsIncludes fileHeader "<!DOCTYPE html" || jsIncludes fileHeader "<html"

/-- The src/unnamed/part_002 `/api/downloads` artifact checks (lines 444-465)
run after the promise resolves: reject when `stat.size < 50 * 1024`, and
reject when the hex dump lacks `"66747970"` (`ftyp`). `fs.readFileSync`
IGNORES the `{ start: 0, end: 16 }` options object (those are
`createReadStream` options), so the `header` variable holds the ENTIRE file
and the marker is searched anywhere in it. -/
def part2HandlerRejects (f : FoundFile) : Bool :=
  decide (f.bytes.length < 50 * 1024) ||
    !(jsIncludes (hexStr f.bytes) "66747970")

/-- End-to-end: an artifact the subprocess produced is served iff it passes
the close-handler validation and then the handler's size and signature
checks. -/
def part2Served (f : FoundFile) : Bool :=
  !part2CloseRejects f && !part2HandlerRejects f

/-! ## Concrete inputs used by the counterexamples and witnesses -/

/-- A title whose 79th and 80th characters are a hyphen and an underscore:
all characters are in the kept class, so the only transformations are the
(here trivial) collapse/strip steps and the final `substring(0, 80)`, which
cuts right after the underscore. -/
def badName : String := ⟨List.replicate 78 'a' ++ ['-', '_', 'b']⟩

/-- 36 zero bytes before the `ftyp` marker of the artifact below. -/
def preBytes : List Nat := List.replicate 36 0

/-- The ASCII bytes of `ftyp` (0x66 0x74 0x79 0x70). -/
def ftypBytes : List Nat := [102, 116, 121, 112]

/-- Zero padding bringing the artifact below to exactly 50 KiB. -/
def postBytes : List Nat := List.replicate 51160 0

/-- A 51200-byte artifact whose first 17 bytes are all zero (no container
signature in the leading bytes) but which carries the `ftyp` bytes at offset
36. -/
def artFtypLater : FoundFile := ⟨"video.mp4", preBytes ++ ftypBytes ++ postBytes⟩

/-- A 2 KiB artifact that is an HTML error page: `<!DOCTYPE html...` followed
by space padding, saved under the expected `.mp4` name. -/
def artHtmlSmall : FoundFile :=
  ⟨"video.mp4",
   asciiBytes "<!DOCTYPE html><html><head></head><body>Sorry, this video is unavailable.</body></html>" ++
     List.replicate 1961 32⟩

/-- A one-item batch whose single video fails at the subprocess step
(`execPromise` rejects), as the index.js orchestrator sees it. -/
def abortBatch : List (BatchVideo × MultiItemEnv) :=
  [(⟨"https://www.youtube.com/watch?v=a", some "22", some "My Video"⟩,
    ⟨some ⟨some "Title", []⟩, false, false, "u1"⟩)]

/-- A two-item batch for the part_000 orchestrator: the first item's download
rejects, the second succeeds. -/
def part0Batch : List (BatchVideo × Part0ItemRes) :=
  [(⟨"https://www.youtube.com/watch?v=a", some "22", some "Video One"⟩,
    Except.error "boom"),
   (⟨"https://www.youtube.com/watch?v=b", none, none⟩, Except.ok "clip.mp4")]

/-- The argument list of the facebook run used by the C3 counterexample. -/
def fbExArgs : List Arg :=
  buildArgs "https://www.facebook.com/watch/?v=1" (some "22") [] none "vid"

/-- The argument list of the tiktok run used by the C10 witness. -/
def ttExArgs : List Arg :=
  buildArgs "https://www.tiktok.com/@user/video/1" none [] none "vid"

/-- The argument list of the youtube video-only run used by the C3 witness. -/
def ytExArgs : List Arg :=
  buildArgs "https://www.youtube.com/watch?v=abc" (some "137")
    [⟨"137", some "avc1.640028", some "none"⟩] none "vid"

/-! ## Helper lemmas about the sanitizer pipeline -/

/-- Every character surviving the first `replace` is in the kept class. -/
lemma mem_underscoreDisallowed {c : Char} {l : List Char}
    (h : c ∈ underscoreDisallowed l) : jsAllowedChar c = true := by
  rcases List.mem_map.mp h with ⟨a, _, rfl⟩
  split
  · assumption
  · decide

/-- Collapsing underscore runs only removes characters. -/
lemma collapse_sublist : ∀ l : List Char, List.Sublist (collapseUnderscores l) l
  | [] => by simp [collapseUnderscores]
  | [c] => by simp [collapseUnderscores]
  | a :: b :: rest => by
    simp only [collapseUnderscores]
    split
    · exact (collapse_sublist (b :: rest)).cons a
    · exact (collapse_sublist (b :: rest)).cons₂ a

/-- Collapsing underscore runs keeps the first character. -/
lemma collapse_head : ∀ l : List Char, (collapseUnderscores l).head? = l.head?
  | [] => rfl
  | [c] => rfl
  | a :: b :: rest => by
    simp only [collapseUnderscores]
    split
    · rename_i h
      rw [collapse_head (b :: rest)]
      simp [h.1, h.2]
    · simp

/-- After collapsing, no two adjacent characters are both underscores. -/
lemma collapse_chain :
    ∀ l : List Char, (collapseUnderscores l).Chain' (fun x y => ¬(x = '_' ∧ y = '_'))
  | [] => by simp [collapseUnderscores]
  | [c] => by simp [collapseUnderscores]
  | a :: b :: rest => by
    simp only [collapseUnderscores]
    split
    · exact collapse_chain (b :: rest)
    · rename_i h
      rw [List.chain'_cons']
      refine ⟨?_, collapse_chain (b :: rest)⟩
      intro y hy
      rw [collapse_head (b :: rest)] at hy
      simp only [List.head?_cons, Option.mem_def, Option.some.injEq] at hy
      subst hy
      exact h

/-- The head of a `dropWhile` result never satisfies the dropped predicate. -/
lemma dropWhile_head_not (p : Char → Bool) :
    ∀ (l : List Char) (a : Char), (l.dropWhile p).head? = some a → p a = false
  | [], a => by simp [List.dropWhile]
  | c :: rest, a => by
    simp only [List.dropWhile]
    split
    · exact dropWhile_head_not p rest a
    · rename_i hc
      intro h
      simp only [List.head?_cons, Option.some.injEq] at h
      subst h
      simpa using hc

/-- A nonempty prefix shares its head with the whole list. -/
lemma head_of_isPre {l m : List Char} (h : l <+: m) (hne : l ≠ []) :
    m.head? = l.head? := by
  rcases h with ⟨t, rfl⟩
  cases l with
  | nil => exact absurd rfl hne
  | cons a l' => rfl

/-- The strip step yields a prefix of its input's underscore-dropped form. -/
lemma strip_isPre (l : List Char) :
    stripUnderscores l <+: l.dropWhile (fun c => c = '_') := by
  unfold stripUnderscores
  rw [← List.reverse_reverse (List.dropWhile (fun c => c = '_') l)]
  rw [List.reverse_prefix]
  rw [List.reverse_reverse]
  exact List.dropWhile_suffix _

/-- The strip step never leaves a trailing underscore. -/
lemma strip_getLast (l : List Char) :
    (stripUnderscores l).getLast? ≠ some '_' := by
  unfold stripUnderscores
  rw [List.getLast?_reverse]
  intro h
  have := dropWhile_head_not _ _ _ h
  simp at this

/-- The strip step produces a contiguous segment of its input. -/
lemma strip_isInf (l : List Char) : stripUnderscores l <:+: l := by
  rcases strip_isPre l with ⟨t, ht⟩
  rcases List.dropWhile_suffix (l := l) (fun c => c = '_') with ⟨u, hu⟩
  exact ⟨u, t, by rw [List.append_assoc, ht, hu]⟩

/-- Truncation to 80 characters keeps the head. -/
lemma take_head {l : List Char} {a : Char} (h : (l.take 80).head? = some a) :
    l.head? = some a := by
  cases l with
  | nil => simp at h
  | cons x t => simpa using h

/-! ## Helper lemmas about the retry loop and list segments -/

/-- Once the fallback has been tried, any further event ends the loop after a
single spawn. -/
lemma runLoop_tried_one (url : String) (q : Option String) (orig cur : List Arg)
    (events : List ProcEvent) :
    (runLoop url q orig cur true events).invocations = 1 := by
  cases events with
  | nil => rfl
  | cons e rest =>
    cases e with
    | err m st => simp [runLoop, errEligible]
    | close files => rfl

/-- The retry loop never spawns the tool more than twice. -/
lemma runLoop_le_two (url : String) (q : Option String) (orig cur : List Arg)
    (events : List ProcEvent) :
    (runLoop url q orig cur false events).invocations ≤ 2 := by
  cases events with
  | nil => simp [runLoop]
  | cons e rest =>
    cases e with
    | err m st =>
      simp only [runLoop]
      split
      · simp [runLoop_tried_one]
      · simp
    | close files => simp [runLoop]

/-- An infix of a middle segment is an infix of the surrounding list. -/
lemma isInf_extend {α : Type} {x mid : List α} (pre post : List α) (h : x <:+: mid) :
    x <:+: pre ++ mid ++ post := by
  rcases h with ⟨s, t, hst⟩
  exact ⟨pre ++ s, t ++ post, by rw [← hst]; simp [List.append_assoc]⟩

/-- Entry `i` of the part_000 batch loop started at index `n` is the entry
function applied at index `n + i`. -/
lemma part0Loop_get (l : List (BatchVideo × Part0ItemRes)) :
    ∀ (n i : Nat), (part0Loop n l).get? i =
      (l.get? i).map (fun x => part0Entry (n + i) x.1 x.2) := by
  induction l with
  | nil => intro n i; simp [part0Loop]
  | cons hd tl ih =>
    intro n i
    cases i with
    | zero => simp [part0Loop]
    | succ j =>
      simp only [part0Loop, List.get?_cons_succ]
      rw [ih (n + 1) j]
      have hn : n + 1 + j = n + (j + 1) := by omega
      rw [hn]

/-- The part_000 batch loop yields one archive entry per item. -/
lemma part0Loop_length (l : List (BatchVideo × Part0ItemRes)) :
    ∀ n : Nat, (part0Loop n l).length = l.length := by
  induction l with
  | nil => intro n; rfl
  | cons hd tl ih => intro n; simp [part0Loop, ih]

/-! ## Claim theorems -/

/-- C1 (counterexample): in the `/api/multi-downloads` orchestrator of
src/backend/index.js, a batch whose single item fails at the subprocess step
is answered with HTTP 500 (`"Multi-download error occurred"`) — the batch is
aborted and no placeholder entry is produced, contradicting the claim that
one item's failure never aborts the batch. -/
theorem c1_index_batch_aborts :
    runBatchIndex abortBatch = MultiResult.aborted "Multi-download error occurred" ∧
    (runBatchIndex abortBatch).isCompleted = false := by
  decide

/-- C1 (amended): in the `/api/multi-downloads` variant of
src/unnamed/part_000 the claim does hold — the batch call always succeeds,
each item contributes exactly one archive entry in order, a failed item `i`
contributes the textual placeholder `failed_<i>.txt` naming the source and
the error, and a successful item contributes its media entry. -/
theorem c1_part0_isolation (l : List (BatchVideo × Part0ItemRes)) :
    (runBatchPart0 l).isCompleted = true ∧
    (part0Loop 0 l).length = l.length ∧
    (∀ i v e, l.get? i = some (v, Except.error e) →
      (part0Loop 0 l).get? i =
        some (ZipEntry.placeholder ("failed_" ++ toString i ++ ".txt")
          ("Failed to download " ++ v.url ++ "\nError: " ++ e))) ∧
    (∀ i v f, l.get? i = some (v, Except.ok f) →
      (part0Loop 0 l).get? i =
        some (ZipEntry.media
          (sanitizeFilename (jsOr v.title (strOr f ("video_" ++ toString i))) ++ ".mp4"))) := by
  refine ⟨rfl, part0Loop_length l 0, ?_, ?_⟩
  · intro i v e h
    rw [part0Loop_get l 0 i, h]
    simp [part0Entry]
  · intro i v f h
    rw [part0Loop_get l 0 i, h]
    simp [part0Entry]

/-- C1 (witness): the amended theorem evaluated on a concrete two-item batch
whose first item fails. -/
theorem c1_part0_isolation_witness :
    (runBatchPart0 part0Batch).isCompleted = true ∧
    (part0Loop 0 part0Batch).get? 0 =
      some (ZipEntry.placeholder "failed_0.txt"
        ("Failed to download https://www.youtube.com/watch?v=a\nError: boom")) :=
  ⟨(c1_part0_isolation part0Batch).1,
   (c1_part0_isolation part0Batch).2.2.1 0
     ⟨"https://www.youtube.com/watch?v=a", some "22", some "Video One"⟩ "boom" rfl⟩

/-- C2: a request whose `url` fails `isValidVideoUrl` is answered with the 400
validation response and no external-tool invocation of any kind — neither the
metadata probe nor a download subprocess — appears in the handler's effect
trace, whatever the environment. -/
theorem c2_rejected_url_no_spawn (r : DlRequest) (env : HandlerEnv)
    (h : isValidVideoUrl r.url = false) :
    handleDownloads r env = (DlResponse.badRequest, []) := by
  unfold handleDownloads hasValidationError
  rw [h]
  simp

/-- C2 (witness): a concrete unsupported URL is rejected with no spawns. -/
theorem c2_rejected_url_no_spawn_witness :
    isValidVideoUrl "https://evil.example.com/watch" = false ∧
    handleDownloads ⟨"https://evil.example.com/watch", some "22", none⟩
        ⟨none, none, 0, "u", []⟩ = (DlResponse.badRequest, []) :=
  ⟨by decide,
   c2_rejected_url_no_spawn ⟨"https://evil.example.com/watch", some "22", none⟩
     ⟨none, none, 0, "u", []⟩ (by decide)⟩

/-- C3 (counterexample): a Facebook download with a requested quality whose
first attempt errors with `Requested format is not available` performs NO
retry: the tool is spawned exactly once and the promise rejects, contradicting
the claim that such a first-attempt failure always triggers exactly one
retry. -/
theorem c3_facebook_no_retry :
    downloadRun "https://www.facebook.com/watch/?v=1" (some "22") fbExArgs
        [ProcEvent.err (some formatErrMsg) none] =
      { invocations := 1, argsUsed := [fbExArgs], cleaned := true,
        result := DlResult.rejectedErr } := by
  decide

/-- C3 (amended): when a quality was requested, the URL is not a Facebook URL
and the first attempt errors with the format-unavailable diagnostic, exactly
one retry runs, its argument list being the original one with the `-f` slot
whose value equals the requested quality overwritten by the fixed
best-compatible expression (a no-op when the first attempt used a synthesized
expression); an error on that retry is terminal (workspace destroyed, promise
rejected); and no execution ever spawns the tool more than twice. -/
theorem c3_retry_once (url q : String) (args : List Arg)
    (m st m2 st2 : Option String) (rest : List ProcEvent)
    (hq : q.isEmpty = false)
    (hfb : jsIncludes url "facebook.com" = false)
    (hmsg : (optIncludes m formatErrMsg || optIncludes st formatErrMsg) = true) :
    downloadRun url (some q) args
        (ProcEvent.err m st :: ProcEvent.err m2 st2 :: rest) =
      { invocations := 2, argsUsed := [args, applyFallback args q], cleaned := true,
        result := DlResult.rejectedErr } ∧
    (∀ (u : String) (qq : Option String) (aa : List Arg) (evs : List ProcEvent),
      (downloadRun u qq aa evs).invocations ≤ 2) := by
  constructor
  · have hg : errEligible url (some q) false m st = true := by
      simp [errEligible, truthy, hq, hfb, hmsg]
    have hg2 : errEligible url (some q) true m2 st2 = false := by
      simp [errEligible]
    unfold downloadRun runLoop
    rw [hg]
    simp only [runLoop, hg2]
    simp
  · intro u qq aa evs
    exact runLoop_le_two u qq aa aa evs

/-- C3 (witness): the amended theorem evaluated on a concrete YouTube
video-only run whose two attempts both error. -/
theorem c3_retry_once_witness :
    downloadRun "https://www.youtube.com/watch?v=abc" (some "137") ytExArgs
        [ProcEvent.err (some formatErrMsg) none,
         ProcEvent.err (some "ERROR: ffmpeg merge failed") none] =
      { invocations := 2, argsUsed := [ytExArgs, applyFallback ytExArgs "137"],
        cleaned := true, result := DlResult.rejectedErr } :=
  (c3_retry_once "https://www.youtube.com/watch?v=abc" "137" ytExArgs
      (some formatErrMsg) none (some "ERROR: ffmpeg merge failed") none []
      (by decide) (by decide) (by decide)).1

/-- C4 (code bug): for an X/Twitter URL the argument list does use the format
expression `bestvideo*+bestaudio/best` and does contain
`--merge-output-format mp4`, but — contradicting both the claim and the
code's own `Do NOT add --recode-video for X` comment — it ALSO contains
`--recode-video`, appended by the unconditional non-audio-only merge block of
src/backend/index.js lines 775-778. -/
theorem c4_x_twitter_recode_bug :
    [Arg.s "-f", Arg.s "bestvideo*+bestaudio/best"] <:+:
        buildArgs "https://x.com/i/status/1" (some "22") [] none "video" ∧
    mergeArgs <:+: buildArgs "https://x.com/i/status/1" (some "22") [] none "video" ∧
    Arg.s "--recode-video" ∈ buildArgs "https://x.com/i/status/1" (some "22") [] none "video" := by
  decide

/-- C5 (counterexample): the sanitizer's kept character class includes the
hyphen, and the 80-character truncation runs AFTER the underscore stripping:
on a title of 78 `a`s followed by `-`, `_`, `b` the output contains a hyphen
(outside the claimed class) and ends with an underscore — contradicting the
claim that the output matches the hyphen-free class and never ends with an
underscore. -/
theorem c5_sanitize_counterexample :
    '-' ∈ (sanitizeFilename badName).data ∧
    (sanitizeFilename badName).data.getLast? = some '_' := by
  decide

/-- C5 (amended): for every input, the sanitizer's output consists only of
ASCII letters, digits, hyphen, underscore and dot, has length at most 80,
contains no two consecutive underscores and never starts with an underscore;
the value before the final 80-character truncation never ends with an
underscore (a trailing underscore can only be an artifact of the
truncation). -/
theorem c5_sanitize_amended (s : String) :
    (∀ c ∈ (sanitizeFilename s).data, jsAllowedChar c = true) ∧
    (sanitizeFilename s).data.length ≤ 80 ∧
    (sanitizeFilename s).data.Chain' (fun a b => ¬(a = '_' ∧ b = '_')) ∧
    (sanitizeFilename s).data.head? ≠ some '_' ∧
    (stripUnderscores (collapseUnderscores (underscoreDisallowed s.data))).getLast? ≠
      some '_' := by
  have hdata : (sanitizeFilename s).data =
      (stripUnderscores (collapseUnderscores (underscoreDisallowed s.data))).take 80 := rfl
  refine ⟨?_, ?_, ?_, ?_, strip_getLast _⟩
  · intro c hc
    rw [hdata] at hc
    have hsub : List.Sublist
        ((stripUnderscores (collapseUnderscores (underscoreDisallowed s.data))).take 80)
        (underscoreDisallowed s.data) :=
      (( List.take_prefix 80 _).sublist.trans
        (strip_isInf _).sublist).trans (collapse_sublist _)
    exact mem_underscoreDisallowed (hsub.subset hc)
  · rw [hdata, List.length_take]
    exact Nat.min_le_left _ _
  · rw [hdata]
    exact List.Chain'.take ( List.Chain'.infix (collapse_chain _) (strip_isInf _)) 80
  · rw [hdata]
    intro h
    have hstrip := take_head h
    have hne : stripUnderscores (collapseUnderscores (underscoreDisallowed s.data)) ≠ [] := by
      intro hempty
      rw [hempty] at hstrip
      simp at hstrip
    have hdw := head_of_isPre
      (strip_isPre (collapseUnderscores (underscoreDisallowed s.data))) hne
    rw [hstrip] at hdw
    have := dropWhile_head_not _ _ _ hdw
    simp at this

/-- C5 (witness): the amended theorem evaluated on a concrete messy title. -/
theorem c5_sanitize_amended_witness :
    (sanitizeFilename "My Video! (1080p).mp4").data.length ≤ 80 ∧
    (sanitizeFilename "My Video! (1080p).mp4").data.head? ≠ some '_' :=
  ⟨(c5_sanitize_amended "My Video! (1080p).mp4").2.1,
   (c5_sanitize_amended "My Video! (1080p).mp4").2.2.2.1⟩

/-- C6: for every URL containing `facebook.com`, whatever quality is
requested (including none), whatever formats exist and whatever cookie file
resolves, the platform chain emits exactly the fixed best-H.264+AAC
expression with merge and recode — so the derived argument list carries
`-f <fixedBest>`, `--merge-output-format mp4` and `--recode-video mp4`, and
the requested quality is ignored. -/
theorem c6_facebook_fixed (url : String) (h : jsIncludes url "facebook.com" = true)
    (quality : Option String) (formats : List FormatDescriptor)
    (cookies : Option String) (name : String) :
    platformArgs url quality formats =
      [Arg.s "-f", Arg.s fixedBest] ++ mergeArgs ++ recodeArgs ∧
    [Arg.s "-f", Arg.s fixedBest] <:+: buildArgs url quality formats cookies name ∧
    mergeArgs <:+: buildArgs url quality formats cookies name ∧
    recodeArgs <:+: buildArgs url quality formats cookies name := by
  have hp : platformArgs url quality formats =
      [Arg.s "-f", Arg.s fixedBest] ++ mergeArgs ++ recodeArgs := by
    unfold platformArgs
    rw [h]
    simp
  have hb : buildArgs url quality formats cookies name =
      ([Arg.s "--no-playlist", Arg.s "--newline"] ++
        (match cookies with
         | some c => [Arg.s "--cookies", Arg.s c]
         | none => [])) ++
      ([Arg.s "-f", Arg.s fixedBest] ++ mergeArgs ++ recodeArgs) ++
      ((if audioOnlySelected url quality formats then [] else mergeArgs ++ recodeArgs) ++
        [Arg.s "-o", Arg.s (name ++ ".%(ext)s"), Arg.s url]) := by
    unfold buildArgs
    rw [hp]
    simp [List.append_assoc]
  refine ⟨hp, ?_, ?_, ?_⟩
  · rw [hb]
    exact isInf_extend _ _ ⟨[], mergeArgs ++ recodeArgs, by simp⟩
  · rw [hb]
    exact isInf_extend _ _ ⟨[Arg.s "-f", Arg.s fixedBest], recodeArgs, by simp⟩
  · rw [hb]
    exact isInf_extend _ _ ⟨[Arg.s "-f", Arg.s fixedBest] ++ mergeArgs, [], by simp⟩

/-- C6 (witness): the theorem evaluated on a concrete Facebook watch URL with
a requested quality. -/
theorem c6_facebook_fixed_witness :
    jsIncludes "https://www.facebook.com/watch/?v=123" "facebook.com" = true ∧
    platformArgs "https://www.facebook.com/watch/?v=123" (some "22") [] =
      [Arg.s "-f", Arg.s fixedBest] ++ mergeArgs ++ recodeArgs :=
  ⟨by decide,
   (c6_facebook_fixed "https://www.facebook.com/watch/?v=123" (by decide)
     (some "22") [] none "vid").1⟩

/-- C7 (counterexample): the batch orchestrator's format selection — also
cited by the claim — maps a video-only YouTube quality `137` to the FIXED
best-compatible expression, not to the synthesized
`137+bestaudio[acodec^=mp4a]/best` the claim demands for every derived
plan. -/
theorem c7_batch_video_only_fixed :
    multiFormatArg "https://www.youtube.com/watch?v=abc" (some "137")
        [⟨"137", some "avc1.640028", some "none"⟩] = fixedBest ∧
    fixedBest ≠ "137+bestaudio[acodec^=mp4a]/best" := by
  decide

/-- C7 (amended): in the single-download path (`downloadWithProgress`), a
YouTube-family URL hitting no earlier platform branch, with a requested
quality whose looked-up descriptor has a truthy video codec and audio codec
`"none"`, yields the synthesized `<quality>+bestaudio[acodec^=mp4a]/best`
with merge and recode; the batch path (`/api/multi-downloads`) instead
substitutes the fixed best-compatible expression for the same input. -/
theorem c7_video_only_synthesized (url q : String) (formats : List FormatDescriptor)
    (cookies : Option String) (name : String) (sf : FormatDescriptor)
    (hq : q.isEmpty = false)
    (hfb : jsIncludes url "facebook.com" = false)
    (hx : jsIncludes url "x.com" = false)
    (htw : jsIncludes url "twitter.com" = false)
    (hig : jsIncludes url "instagram.com" = false)
    (hyt : (jsIncludes url "youtube.com" || jsIncludes url "youtu.be") = true)
    (hfind : findFormat formats q = some sf)
    (hv : truthy sf.vcodec = true)
    (ha : sf.acodec = some "none") :
    platformArgs url (some q) formats =
      [Arg.s "-f", Arg.s (q ++ "+bestaudio[acodec^=mp4a]/best")] ++ mergeArgs ++
        recodeArgs ++ [Arg.s "--user-agent", Arg.s chromeUA] ∧
    [Arg.s "-f", Arg.s (q ++ "+bestaudio[acodec^=mp4a]/best")] <:+:
      buildArgs url (some q) formats cookies name ∧
    mergeArgs <:+: buildArgs url (some q) formats cookies name ∧
    recodeArgs <:+: buildArgs url (some q) formats cookies name ∧
    multiFormatArg url (some q) formats = fixedBest := by
  have haud : audioOnlyFmt sf = false := by
    simp [audioOnlyFmt, ha]
  have hvid : videoOnlyFmt sf = true := by
    simp [videoOnlyFmt, hv, ha]
  have htq : truthy (some q) = true := by simp [truthy, hq]
  have hp : platformArgs url (some q) formats =
      [Arg.s "-f", Arg.s (q ++ "+bestaudio[acodec^=mp4a]/best")] ++ mergeArgs ++
        recodeArgs ++ [Arg.s "--user-agent", Arg.s chromeUA] := by
    unfold platformArgs
    rw [hfb, hx, htw, hig, hyt]
    simp only [htq, Option.getD_some, hfind, haud, hvid, if_true, if_false,
      Bool.false_eq_true, Bool.true_eq_false, ite_true, ite_false]
    simp
  have hb : buildArgs url (some q) formats cookies name =
      ([Arg.s "--no-playlist", Arg.s "--newline"] ++
        (match cookies with
         | some c => [Arg.s "--cookies", Arg.s c]
         | none => [])) ++
      ([Arg.s "-f", Arg.s (q ++ "+bestaudio[acodec^=mp4a]/best")] ++ mergeArgs ++
        recodeArgs ++ [Arg.s "--user-agent", Arg.s chromeUA]) ++
      ((if audioOnlySelected url (some q) formats then [] else mergeArgs ++ recodeArgs) ++
        [Arg.s "-o", Arg.s (name ++ ".%(ext)s"), Arg.s url]) := by
    unfold buildArgs
    rw [hp]
    simp [List.append_assoc]
  refine ⟨hp, ?_, ?_, ?_, ?_⟩
  · rw [hb]
    exact isInf_extend _ _
      ⟨[], mergeArgs ++ recodeArgs ++ [Arg.s "--user-agent", Arg.s chromeUA], by simp⟩
  · rw [hb]
    exact isInf_extend _ _
      ⟨[Arg.s "-f", Arg.s (q ++ "+bestaudio[acodec^=mp4a]/best")],
       recodeArgs ++ [Arg.s "--user-agent", Arg.s chromeUA], by simp⟩
  · rw [hb]
    exact isInf_extend _ _
      ⟨[Arg.s "-f", Arg.s (q ++ "+bestaudio[acodec^=mp4a]/best")] ++ mergeArgs,
       [Arg.s "--user-agent", Arg.s chromeUA], by simp⟩
  · unfold multiFormatArg
    rw [hfb, hig]
    simp only [htq, if_true, if_false, Bool.false_eq_true, ite_false, ite_true]
    rw [hyt]
    simp [hfind, hv, ha]

/-- C7 (witness): the amended theorem evaluated at quality `137` on a
concrete YouTube URL. -/
theorem c7_video_only_synthesized_witness :
    platformArgs "https://www.youtube.com/watch?v=abc" (some "137")
        [⟨"137", some "avc1.640028", some "none"⟩] =
      [Arg.s "-f", Arg.s ("137" ++ "+bestaudio[acodec^=mp4a]/best")] ++ mergeArgs ++
        recodeArgs ++ [Arg.s "--user-agent", Arg.s chromeUA] ∧
    multiFormatArg "https://www.youtube.com/watch?v=abc" (some "137")
        [⟨"137", some "avc1.640028", some "none"⟩] = fixedBest :=
  ⟨(c7_video_only_synthesized "https://www.youtube.com/watch?v=abc" "137"
      [⟨"137", some "avc1.640028", some "none"⟩] none "vid"
      ⟨"137", some "avc1.640028", some "none"⟩ (by decide) (by decide) (by decide)
      (by decide) (by decide) (by decide) (by decide) (by decide) (by decide)).1,
   (c7_video_only_synthesized "https://www.youtube.com/watch?v=abc" "137"
      [⟨"137", some "avc1.640028", some "none"⟩] none "vid"
      ⟨"137", some "avc1.640028", some "none"⟩ (by decide) (by decide) (by decide)
      (by decide) (by decide) (by decide) (by decide) (by decide) (by decide)).2.2.2.2⟩

set_option maxRecDepth 8192 in
/-- C8 (code bug): the 2 KiB HTML error page is indeed rejected, but the
`ftyp` signature is NOT checked on the leading bytes: because
`fs.readFileSync` ignores the `{ start: 0, end: 16 }` options, the marker is
searched in the hex dump of the whole file. The 51200-byte artifact below has
no signature in its first 17 bytes yet carries `ftyp` at offset 36, and it is
served — where the claim (and the code's evident intent) requires
rejection. -/
theorem c8_ftyp_scan_whole_file :
    part2Served artFtypLater = true ∧
    jsIncludes (hexStr (artFtypLater.bytes.take 17)) "66747970" = false ∧
    part2Served artHtmlSmall = false := by
  have h300 : artFtypLater.bytes.take 300 =
      preBytes ++ ftypBytes ++ List.replicate 260 0 := by
    have h : (300 : Nat) = (preBytes ++ ftypBytes).length + 260 := by
      simp only [preBytes, ftypBytes, List.length_append, List.length_replicate,
        List.length_cons, List.length_nil]
    have hmin : (260 : Nat) ⊓ 51160 = 260 := by norm_num
    simp only [artFtypLater]
    rw [List.append_assoc, ← List.append_assoc, h, List.take_append, postBytes,
      List.take_replicate, hmin]
  have hclose : part2CloseRejects artFtypLater = false := by
    simp only [part2CloseRejects, h300]
    decide
  have hlen : artFtypLater.bytes.length = 51200 := by
    simp only [artFtypLater, preBytes, ftypBytes, postBytes, List.length_append,
      List.length_replicate, List.length_cons, List.length_nil]
  have hsplit : (hexStr artFtypLater.bytes).data =
      (hexStr preBytes).data ++ ((hexStr ftypBytes).data ++ (hexStr postBytes).data) := by
    simp [artFtypLater, hexStr, List.map_append, List.flatten_append]
  have hmarker : "66747970".data = (hexStr ftypBytes).data := by decide
  have hinf : "66747970".data <:+: (hexStr artFtypLater.bytes).data := by
    rw [hsplit, hmarker]
    exact ⟨(hexStr preBytes).data, (hexStr postBytes).data, by simp⟩
  have hftyp : jsIncludes (hexStr artFtypLater.bytes) "66747970" = true := by
    simp only [jsIncludes, decide_eq_true_eq]
    exact hinf
  have hhandler : part2HandlerRejects artFtypLater = false := by
    simp [part2HandlerRejects, hlen, hftyp]
  have hhtml : part2CloseRejects artHtmlSmall = true := by
    decide
  refine ⟨?_, by decide, ?_⟩
  · simp [part2Served, hclose, hhandler]
  · simp [part2Served, hhtml]

/-- C9: the cookie resolver returns a bundle path exactly when the URL maps
to one and that file exists at this very call; unmapped URLs and missing
files yield nothing rather than an error, and — existence being re-read from
the filesystem parameter on each call — the same URL yields the path or
nothing depending on the file's existence at that moment. -/
theorem c9_cookie_resolver (url : String) (fsExists : String → Bool) :
    ((getCookiesFile url fsExists).isSome = true ↔
      ∃ f, mappedCookieFile url = some f ∧ fsExists f = true) ∧
    (∀ f, mappedCookieFile url = some f →
      getCookiesFile url (fun _ => true) = some f ∧
        getCookiesFile url (fun _ => false) = none) ∧
    (mappedCookieFile url = none → getCookiesFile url fsExists = none) := by
  unfold getCookiesFile mappedCookieFile
  by_cases hig : jsIncludes (toLowerStr url) "instagram.com" = true
  · rw [hig]
    simp only [if_true]
    refine ⟨?_, ?_, ?_⟩
    · cases hfe : fsExists "instagram.com_cookies.txt" <;> simp [hfe]
    · intro f hf
      simp only [Option.some.injEq] at hf
      subst hf
      simp
    · intro h
      simp at h
  · simp only [Bool.not_eq_true] at hig
    rw [hig]
    simp only [if_false, Bool.false_eq_true]
    cases hfind : cookieDomainMap.find? (fun p => jsIncludes url p.1) with
    | none => simp
    | some p =>
      refine ⟨?_, ?_, ?_⟩
      · cases hfe : fsExists p.2 <;> simp [hfe]
      · intro f hf
        simp only [Option.map_some', Option.some.injEq] at hf
        subst hf
        simp
      · intro h
        simp at h

/-- C9 (witness): a TikTok short-link URL resolves to the TikTok bundle when
the file exists and to nothing when it does not. -/
theorem c9_cookie_resolver_witness :
    getCookiesFile "https://vt.tiktok.com/ZSxyz/" (fun _ => true) =
        some "tiktok.com_cookies.txt" ∧
    getCookiesFile "https://vt.tiktok.com/ZSxyz/" (fun _ => false) = none :=
  (c9_cookie_resolver "https://vt.tiktok.com/ZSxyz/" (fun _ => true)).2.1
    "tiktok.com_cookies.txt" (by decide)

/-- C10: the fallback retry is reachable only when the requested quality is
truthy, the URL is not a Facebook URL and the error's message or stderr
contains `Requested format is not available`; in every other first-error case
the loop spawns the tool exactly once, destroys the scratch workspace and
rejects. -/
theorem c10_fallback_guard (url : String) (quality : Option String) (args : List Arg)
    (m st : Option String) (rest : List ProcEvent) :
    (1 < (downloadRun url quality args (ProcEvent.err m st :: rest)).invocations →
      truthy quality = true ∧ jsIncludes url "facebook.com" = false ∧
        (optIncludes m formatErrMsg || optIncludes st formatErrMsg) = true) ∧
    ((truthy quality = false ∨ jsIncludes url "facebook.com" = true ∨
        (optIncludes m formatErrMsg || optIncludes st formatErrMsg) = false) →
      downloadRun url quality args (ProcEvent.err m st :: rest) =
        { invocations := 1, argsUsed := [args], cleaned := true,
          result := DlResult.rejectedErr }) := by
  constructor
  · intro h
    by_cases hg : errEligible url quality false m st = true
    · simp only [errEligible, Bool.not_false, Bool.true_and, Bool.and_eq_true,
        Bool.not_eq_true'] at hg
      exact ⟨hg.1.2, hg.1.1, hg.2⟩
    · simp only [Bool.not_eq_true] at hg
      unfold downloadRun runLoop at h
      rw [hg] at h
      simp at h
  · intro h
    have hg : errEligible url quality false m st = false := by
      unfold errEligible
      rcases h with h | h | h <;> simp [h]
    unfold downloadRun runLoop
    rw [hg]
    simp

/-- C10 (witness): a TikTok run without a requested quality whose first
attempt errors with an unrelated diagnostic is rejected after a single spawn
with the workspace destroyed. -/
theorem c10_fallback_guard_witness :
    truthy (none : Option String) = false ∧
    downloadRun "https://www.tiktok.com/@user/video/1" none ttExArgs
        [ProcEvent.err (some "ERROR: Unsupported URL") none] =
      { invocations := 1, argsUsed := [ttExArgs], cleaned := true,
        result := DlResult.rejectedErr } :=
  ⟨by decide,
   (c10_fallback_guard "https://www.tiktok.com/@user/video/1" none ttExArgs
     (some "ERROR: Unsupported URL") none []).2 (Or.inl (by decide))⟩
